import Mathlib

/-!
# Verification of the SEPTA stop / POI ingestion and aggregation pipeline

A shallow embedding, in Lean 4, of the ingestion and aggregation core of the
repository (files `septa.py`, `pois.py`, `stats.py`):

* `store_septa_stops` (septa.py) — the stop ingestion batcher: fetches one
  candidate listing per stop category and inserts new stops round-robin
  across categories, up to a batch cap, skipping stops already in the store.
* `store_pois` (pois.py) — the POI ingestion batcher: visits stops (reordered
  to restart near where the previous invocation stopped), fetches a POI
  listing per unsaturated stop, and inserts new POI rows up to a batch cap.
* `calculate_data` (stats.py) — the aggregation pass: counts POIs per stop at
  a distance threshold and deduplicates stops sharing a display name.

The database tables are modelled as append-only lists of rows (each SQLite
INSERT appends and commits immediately; rows are never updated or deleted).
SQL three-valued logic matters in two places and is modelled faithfully:
a comparison `column = ?` with a NULL operand never holds, so a NULL
`distance` never matches the POI existence check and never satisfies the
aggregation join condition `p.distance <= ?`.

External HTTP calls are modelled by their observable data: a response is a
status code plus an optional parsed body (`none` = body that fails to parse),
and the fetched listings / an environment function are passed to the storing
functions as arguments.
-/

namespace Project

/-- `BATCH_SIZE = 25` (septa.py line 15, pois.py line 20). -/
def BATCH_SIZE : Nat := 25

/-- `STOP_TYPES = ["bus_stops", "trolley_stops", "rail_stations"]` (septa.py line 18). -/
def STOP_TYPES : List String := ["bus_stops", "trolley_stops", "rail_stations"]

/-- `POI_RADII = [416, 833, 1250]` (pois.py line 15, stats.py line 22). -/
def POI_RADII : List Int := [416, 833, 1250]

/-! ## SEPTA stop ingestion (septa.py) -/

/-- One record of a SEPTA listing response.  Per the documented source format
(spec §6, septa.py lines 59–66) every record carries a source-assigned
`location_id`, a `location_name` and coordinates, all as strings. -/
structure Candidate where
  location_id : String
  location_name : String
  location_lat : String
  location_lon : String
  deriving Repr, DecidableEq

/-- A row of the `stops` table (septa.py lines 28–38), minus the surrogate
`id` column, which `store_septa_stops` never reads. -/
structure StopRow where
  stop_type : String
  stop_id : String
  name : String
  lat : String
  lon : String
  deriving Repr, DecidableEq

/-- The `stops` table, as the chronological list of its committed rows. -/
abbrev StopDb := List StopRow

/-- `SELECT 1 FROM stops WHERE stop_type=? AND stop_id=?` returns a row
(septa.py line 94). -/
def stopExists (db : StopDb) (stype sid : String) : Bool :=
  db.any fun r => r.stop_type == stype && r.stop_id == sid

/-- An HTTP response from the SEPTA source: status code and the result of
parsing the body (`none` when `r.json()` would fail). -/
structure SeptaResponse where
  status : Nat
  body : Option (List Candidate)

/-- `fetch_septa_stops` (septa.py lines 46–67): `data = r.json() if
r.status_code == 200 else []`.  On a 200 status the body is parsed with no
exception handler, so an unparsable body propagates `r.json()`'s exception
(modelled as `Except.error`); any other status yields `[]`. -/
def fetch_septa_stops (r : SeptaResponse) : Except String (List Candidate) :=
  if r.status = 200 then
    match r.body with
    | some data => Except.ok data
    | none => Except.error "JSONDecodeError"
  else Except.ok []

/-- The `beeg_data` dict of `store_septa_stops` (septa.py lines 77–79):
category name to remaining candidate listing, in insertion order of keys. -/
abbrev BeegData := List (String × List Candidate)

/-- `beeg_data[stype] = rest` for an existing key (dict update in place,
key order preserved). -/
def dictSet (d : BeegData) (key : String) (val : List Candidate) : BeegData :=
  match d with
  | [] => []
  | (k, v) :: rest =>
      if k = key then (k, val) :: rest else (k, v) :: dictSet rest key val

/-- `beeg_data.pop(stype)` (septa.py line 104): remove the entry for a key,
preserving the order of the others. -/
def dictRemove (d : BeegData) (key : String) : BeegData :=
  match d with
  | [] => []
  | (k, v) :: rest =>
      if k = key then rest else (k, v) :: dictRemove rest key

/-- The inner `while len(beeg_data[stype]) > 0` loop of `store_septa_stops`
(septa.py lines 87–110) specialised to one category: pop candidates already
present in the store off the front of the listing until one is new; insert
that one, pop it, and stop (`break`), or run out of candidates.  Returns the
grown table, the remaining listing, and whether an insertion happened. -/
def innerLoop (db : StopDb) (stype : String) :
    List Candidate → StopDb × List Candidate × Bool
  | [] => (db, [], false)
  | c :: rest =>
      if stopExists db stype c.location_id then
        innerLoop db stype rest
      else
        (db ++ [⟨stype, c.location_id, c.location_name, c.location_lat, c.location_lon⟩],
         rest, true)

/-- The mutable state of `store_septa_stops`'s outer loop: the `beeg_data`
dict, the `stops` table, and the `num_inserted` counter. -/
structure SeptaState where
  data : BeegData
  db : StopDb
  num_inserted : Nat
  deriving Repr

/-- One iteration of the outer `while` body of `store_septa_stops`
(septa.py lines 85–110), taken when the loop neither breaks nor exits:
select the category at index `num_inserted % len(beeg_data)`, run the inner
loop on its listing, write the remaining listing back (removing the key only
when the *insertion* emptied the listing — septa.py lines 103–104), and bump
the counter on insertion. -/
def septaStep (s : SeptaState) : SeptaState :=
  let entry := (s.data[s.num_inserted % s.data.length]?).getD ("", [])
  let stype := entry.1
  let res := innerLoop s.db stype entry.2
  let db' := res.1
  let rest := res.2.1
  let inserted := res.2.2
  let data' :=
    if inserted then
      if rest.isEmpty then dictRemove s.data stype else dictSet s.data stype rest
    else dictSet s.data stype rest
  ⟨data', db', s.num_inserted + (if inserted then 1 else 0)⟩

/-- The outer `while num_inserted < BATCH_SIZE or len(beeg_data) == 0` loop
of `store_septa_stops` (septa.py lines 82–110), step-indexed by fuel:
`none` means the loop has not exited within `fuel` iterations.  The loop
continues exactly when `num_inserted < cap` and `beeg_data` is non-empty;
otherwise it exits (guard failure, or the `break` at line 84) with the
current state.  The batch cap is a parameter so that the loop can also be
examined at caps other than the configured `BATCH_SIZE`. -/
def storeSeptaLoop (cap : Nat) : Nat → SeptaState → Option SeptaState
  | 0, _ => none
  | fuel + 1, s =>
      if s.num_inserted < cap ∧ s.data ≠ [] then
        storeSeptaLoop cap fuel (septaStep s)
      else
        some s

/-- The `beeg_data` dict literal of septa.py lines 77–79, from the three
fetched listings. -/
def mkBeegData (bus trolley rail : List Candidate) : BeegData :=
  [("bus_stops", bus), ("trolley_stops", trolley), ("rail_stations", rail)]

/-- `store_septa_stops` (septa.py lines 69–112) over given fetched listings
and an initial `stops` table.  The function body ends without a `return`
statement, so the Python function returns `None`: the value component of the
result is therefore always `none`.  `none` overall means the invocation does
not terminate within `fuel` outer-loop iterations. -/
def store_septa_stops (bus trolley rail : List Candidate) (db : StopDb)
    (fuel : Nat) : Option (StopDb × Option Nat) :=
  (storeSeptaLoop BATCH_SIZE fuel ⟨mkBeegData bus trolley rail, db, 0⟩).map
    fun t => (t.db, none)

/-! ## POI ingestion (pois.py) -/

/-- One record of a LocationIQ response (pois.py lines 118–121): each field is
read with `.get`, so any of them may be absent.  `distance` has no default;
`name` and `class` are defaulted at the use site. -/
structure PoiRec where
  distance : Option Int
  name : Option String
  poiClass : Option String
  deriving Repr, DecidableEq

/-- A row of the `pois` table (pois.py lines 32–41), minus the surrogate `id`
column, which `store_pois` never reads.  `distance` is nullable: an absent
`"distance"` field inserts SQL NULL. -/
structure PoiRow where
  stop_id : Nat
  distance : Option Int
  category : String
  name : String
  deriving Repr, DecidableEq

/-- The `pois` table, as the chronological list of its committed rows. -/
abbrev PoiDb := List PoiRow

/-- A row of the `stops` table as read by `store_pois`
(`SELECT id, lat, lon, name FROM stops`, pois.py line 83). -/
structure Stop where
  id : Nat
  lat : String
  lon : String
  name : String
  deriving Repr, DecidableEq

/-- SQL equality on the nullable `distance` column: `distance = ?` is true
only when both operands are non-NULL and equal (a NULL operand makes the
comparison unknown, which the WHERE clause treats as false). -/
def sqlEqDist (rowDist paramDist : Option Int) : Bool :=
  match rowDist, paramDist with
  | some a, some b => a == b
  | _, _ => false

/-- `SELECT * FROM pois WHERE stop_id=? AND distance=? AND category=? AND
name=?` returns at least one row (pois.py lines 122–124), with SQL NULL
semantics on the `distance` comparison. -/
def poiExists (db : PoiDb) (sid : Nat) (pdist : Option Int)
    (pcat pname : String) : Bool :=
  db.any fun r =>
    r.stop_id == sid && sqlEqDist r.distance pdist &&
      r.category == pcat && r.name == pname

/-- `SELECT COUNT(*) FROM pois WHERE stop_id=?` (pois.py lines 114–115). -/
def countForStop (db : PoiDb) (sid : Nat) : Nat :=
  (db.filter fun r => r.stop_id == sid).length

/-- An HTTP response from the LocationIQ source: status code and the result
of parsing the body (`none` when `r.json()` would fail). -/
structure PoiResponse where
  status : Nat
  body : Option (List PoiRec)

/-- `fetch_locationiq_pois` (pois.py lines 48–71): a 200 response returns the
parsed body, with `try/except` turning a parse failure into `[]`; any other
status returns `[]`. -/
def fetch_locationiq_pois (r : PoiResponse) : List PoiRec :=
  if r.status = 200 then
    match r.body with
    | some data => data
    | none => []
  else []

/-- The external POI source as observed by one invocation of `store_pois`:
the listing obtained for given `lat`/`lon` (at the fixed radius
`POI_RADII[2]`, pois.py line 117). -/
abbrev PoiEnv := String → String → List PoiRec

/-- The `for pd in pois_data` loop of `store_pois` (pois.py lines 118–132)
for one stop: default missing `name`/`class`, skip records whose natural key
already has a row (NULL-semantics existence check), insert the rest, and
`break` as soon as `inserted_count` reaches `BATCH_SIZE`. -/
def insertFetched (sid : Nat) : PoiDb → Nat → List PoiRec → PoiDb × Nat
  | db, cnt, [] => (db, cnt)
  | db, cnt, pd :: rest =>
      let pdist := pd.distance
      let pname := pd.name.getD "Unknown Name"
      let pcat := pd.poiClass.getD "Unknown Category"
      if poiExists db sid pdist pcat pname then
        insertFetched sid db cnt rest
      else
        let db' := db ++ [⟨sid, pdist, pcat, pname⟩]
        if BATCH_SIZE ≤ cnt + 1 then (db', cnt + 1)
        else insertFetched sid db' (cnt + 1) rest

/-- The `for stop_id, slat, slon, n in all_stops` loop of `store_pois`
(pois.py lines 110–132): stop once the cap is reached, skip saturated stops
(50 or more stored POI rows), and otherwise fetch the stop's listing and run
the insertion loop on it. -/
def storePoisLoop (env : PoiEnv) : List Stop → PoiDb → Nat → PoiDb × Nat
  | [], db, cnt => (db, cnt)
  | s :: rest, db, cnt =>
      if BATCH_SIZE ≤ cnt then (db, cnt)
      else if countForStop db s.id < 50 then
        let pois_data := env s.lat s.lon
        let res := insertFetched s.id db cnt pois_data
        storePoisLoop env rest res.1 res.2
      else
        storePoisLoop env rest db cnt

/-- Insert a value into a descending-sorted list, keeping it descending. -/
def insertDesc (x : Nat) : List Nat → List Nat
  | [] => [x]
  | y :: ys => if y < x then x :: y :: ys else y :: insertDesc x ys

/-- Sort a list of ids in descending order (`ORDER BY stop_id DESC`). -/
def sortDesc : List Nat → List Nat
  | [] => []
  | x :: xs => insertDesc x (sortDesc xs)

/-- The distinct elements of a list, first occurrence kept (`SELECT
DISTINCT`). -/
def distinctIds (l : List Nat) : List Nat :=
  go [] l
where
  /-- Accumulating worker: drop elements already seen. -/
  go : List Nat → List Nat → List Nat
  | _, [] => []
  | seen, x :: xs =>
      if x ∈ seen then go seen xs else x :: go (x :: seen) xs

/-- pois.py lines 87–98: `SELECT DISTINCT stop_id FROM pois ORDER BY stop_id
DESC LIMIT 2`, then take the second row when there are two — that is, the
second-largest distinct `stop_id` value present in the `pois` table. -/
def secondLargestDistinctId (db : PoiDb) : Option Nat :=
  let poisStopIds := (sortDesc (distinctIds (db.map fun r => r.stop_id))).take 2
  if poisStopIds.length = 2 then poisStopIds[1]? else none

/-- pois.py lines 100–107: when a second-to-last stop id was found and occurs
in `all_stops`, rotate `all_stops` to start at its first occurrence. -/
def reorderedStops (stops : List Stop) (db : PoiDb) : List Stop :=
  match secondLargestDistinctId db with
  | none => stops
  | some sid =>
      match stops.findIdx? (fun s => s.id == sid) with
      | none => stops
      | some i => stops.drop i ++ stops.take i

/-- `store_pois` (pois.py lines 74–134) over an environment, the current
`stops` table contents and the current `pois` table: reorder the stop list
from the store-derived restart point, run the visitation loop, and return the
final table together with `inserted_count` (pois.py line 134 does return
it). -/
def store_pois (env : PoiEnv) (stops : List Stop) (db : PoiDb) :
    PoiDb × Nat :=
  storePoisLoop env (reorderedStops stops db) db 0

/-! ## Aggregation (stats.py) -/

/-- The `COUNT(p.id)` of the aggregation query for one stop (stats.py lines
81–88): POI rows joined by `s.id = p.stop_id AND p.distance <= ?`.  A NULL
`distance` never satisfies the join condition, so such rows contribute
nothing at any threshold. -/
def poiCountAtThreshold (db : PoiDb) (sid : Nat) (threshold : Int) : Nat :=
  (db.filter fun r =>
    r.stop_id == sid &&
      (match r.distance with
       | some d => decide (d ≤ threshold)
       | none => false)).length

/-- The `unique_dict` of `calculate_data` (stats.py lines 101–105), as an
assoc list in first-come key order.  `dictLookup` is the membership test /
read `name in unique_dict` / `unique_dict[name]`. -/
def dictLookup : List (String × Nat) → String → Option Nat
  | [], _ => none
  | (k, v) :: rest, n => if k = n then some v else dictLookup rest n

/-- `unique_dict[name] = poi_count` when the key is already present:
overwrite in place, preserving key order. -/
def dictWrite : List (String × Nat) → String → Nat → List (String × Nat)
  | [], n, c => [(n, c)]
  | (k, v) :: rest, n, c =>
      if k = n then (k, c) :: rest else (k, v) :: dictWrite rest n c

/-- The `for name, poi_count in stops_list` loop of `calculate_data`
(stats.py lines 102–105): write the count into the dict when the name is new
or the count strictly exceeds the stored one. -/
def dedupFold : List (String × Nat) → List (String × Nat) → List (String × Nat)
  | acc, [] => acc
  | acc, (n, c) :: rest =>
      match dictLookup acc n with
      | none => dedupFold (acc ++ [(n, c)]) rest
      | some c₀ => if c₀ < c then dedupFold (dictWrite acc n c) rest
                   else dedupFold acc rest

/-- The name-deduplication pass of `calculate_data` (stats.py lines 100–107)
on one category's `(name, poi_count)` list: fold the list through
`unique_dict`, then read the dict back out as a list (insertion key
order). -/
def dedupKeepMax (l : List (String × Nat)) : List (String × Nat) :=
  dedupFold [] l

/-- The maximum `poi_count` observed under a given name in a `(name, count)`
list, `none` when the name does not occur.  This follows the spec's words
("keep only the maximum POI count among them") and is compared against the
code's `dedupKeepMax`. -/
def maxOfName : List (String × Nat) → String → Option Nat
  | [], _ => none
  | (k, c) :: rest, n =>
      if k = n then
        match maxOfName rest n with
        | none => some c
        | some m => some (max c m)
      else maxOfName rest n

/-- The spec's restart point for `store_pois` ("the batcher determines the
most recently touched stop … second-most-recent is chosen"): order the
distinct stops touched in the POI store by recency of their latest inserted
row, most recent first, and take the second.  Compared against the code's
`secondLargestDistinctId`. -/
def secondMostRecentlyTouched (db : PoiDb) : Option Nat :=
  (distinctIds ((db.map fun r => r.stop_id).reverse))[1]?

/-- A stored-POI test with plain (non-SQL) equality on the nullable distance:
the natural key of the fetched record `pd` has a row for stop `sid`. -/
def poiStored (db : PoiDb) (sid : Nat) (pd : PoiRec) : Bool :=
  db.any fun r =>
    r.stop_id == sid && r.distance == pd.distance &&
      r.category == pd.poiClass.getD "Unknown Category" &&
      r.name == pd.name.getD "Unknown Name"

/-- The right-hand side of the POI exhaustion-signal claim: does some stop
remain that is unsaturated (fewer than 50 stored POI rows) and has a
fetchable POI at the search radius whose natural key is not yet stored
(plain equality on the nullable distance)? -/
def unsaturatedFetchableRemains (env : PoiEnv) (stops : List Stop)
    (db : PoiDb) : Bool :=
  stops.any fun s =>
    if countForStop db s.id < 50 then
      (env s.lat s.lon).any fun pd => !(poiStored db s.id pd)
    else false

/-- Combine the maximum-so-far stored in the dict for a name with the
maximum over the rest of the input (`none` = the name absent). -/
def optCombine : Option Nat → Option Nat → Option Nat
  | none, o => o
  | some c, none => some c
  | some c, some m => some (max c m)

/-- The entries a final dict contributes for one name: none, or a single
`(name, value)` pair. -/
def entryOf (n : String) : Option Nat → List (String × Nat)
  | none => []
  | some v => [(n, v)]

/-! ## Concrete scenarios used to instantiate the theorems -/

/-- `n` listing records with ids `p1`, `p2`, … -/
def mkCands (p : String) (n : Nat) : List Candidate :=
  (List.range n).map fun i => ⟨p ++ toString (i + 1), "name", "lat", "lon"⟩

/-- First invocation on three 17-candidate listings against an empty store
(inserts a full batch of 25). -/
def c2Run1 : StopDb × Option Nat :=
  (store_septa_stops (mkCands "b" 17) (mkCands "t" 17) (mkCands "r" 17)
    [] 40).getD ([], none)

/-- Second invocation with the identical listings against the store the
first one left (skips the 25 duplicates, inserts 25 more). -/
def c2Run2 : StopDb × Option Nat :=
  (store_septa_stops (mkCands "b" 17) (mkCands "t" 17) (mkCands "r" 17)
    c2Run1.1 60).getD ([], none)

/-- An invocation on three singleton listings against an empty store
(exhausts every listing after 3 insertions and exits). -/
def c3T : StopDb × Option Nat :=
  (store_septa_stops (mkCands "b" 1) (mkCands "t" 1) (mkCands "r" 1)
    [] 10).getD ([], none)

/-- The loop state the three-singleton invocation exits with. -/
def c9T : SeptaState :=
  (storeSeptaLoop BATCH_SIZE 10
    ⟨mkBeegData (mkCands "b" 1) (mkCands "t" 1) (mkCands "r" 1), [], 0⟩).getD
    ⟨[], [], 0⟩

/-- A POI source answering every query with the same 25 fresh records. -/
def env25 : PoiEnv :=
  fun _ _ => (List.range 25).map fun i => ⟨some ((i : Int) + 1), some "N", some "C"⟩

/-- A POI source answering every query with an empty listing. -/
def emptyEnv : PoiEnv := fun _ _ => []

/-- A single stop. -/
def oneStop : List Stop := [⟨1, "0", "0", "S"⟩]

/-- Three stops with ids 1, 2, 3. -/
def c5Stops : List Stop := [⟨1, "a", "a", "A"⟩, ⟨2, "b", "b", "B"⟩, ⟨3, "c", "c", "C"⟩]

/-- A POI store whose rows were committed for stop 3 first, then stop 1:
stop 1 is the most recently touched stop and stop 3 the second-most-recent,
while 3 and 1 are the two largest distinct stop ids. -/
def c5Db : PoiDb := [⟨3, some 1, "c", "n"⟩, ⟨1, some 1, "c", "n"⟩]

/-- A fetched POI record with no `"distance"`, `"name"` or `"class"` field. -/
def nullRec : PoiRec := ⟨none, none, none⟩

/-! ## Lemmas about the stop ingestion batcher -/

theorem stopExists_append (db e : StopDb) (t i : String) :
    stopExists (db ++ e) t i = (stopExists db t i || stopExists e t i) := by
  simp [stopExists, List.any_append]

theorem stopExists_false_iff (db : StopDb) (t i : String) :
    stopExists db t i = false ↔
      ∀ r ∈ db, ¬(r.stop_type = t ∧ r.stop_id = i) := by
  simp [stopExists, List.any_eq_false, not_and]

/-- The inner loop appends at most one row, which was absent from the store,
and reports via its flag whether it appended one. -/
theorem innerLoop_spec (stype : String) :
    ∀ (l : List Candidate) (db : StopDb),
      ∃ e, (innerLoop db stype l).1 = db ++ e ∧
        e.length = (if (innerLoop db stype l).2.2 then 1 else 0) ∧
        ∀ r ∈ e, stopExists db r.stop_type r.stop_id = false
  | [], db => ⟨[], by simp [innerLoop]⟩
  | c :: rest, db => by
      rw [innerLoop]
      by_cases h : stopExists db stype c.location_id
      · rw [if_pos h]
        exact innerLoop_spec stype rest db
      · rw [if_neg h]
        refine ⟨[⟨stype, c.location_id, c.location_name, c.location_lat,
          c.location_lon⟩], rfl, rfl, ?_⟩
        intro r hr
        rw [List.mem_singleton] at hr
        subst hr
        simpa using h

/-- One outer-loop iteration appends at most one fresh row and bumps the
counter by exactly the number of appended rows. -/
theorem septaStep_spec (s : SeptaState) :
    ∃ e, (septaStep s).db = s.db ++ e ∧
      (septaStep s).num_inserted = s.num_inserted + e.length ∧
      e.length ≤ 1 ∧
      ∀ r ∈ e, stopExists s.db r.stop_type r.stop_id = false := by
  unfold septaStep
  obtain ⟨e, h1, h2, h3⟩ := innerLoop_spec
    (((s.data[s.num_inserted % s.data.length]?).getD ("", [])).1)
    (((s.data[s.num_inserted % s.data.length]?).getD ("", [])).2) s.db
  refine ⟨e, h1, ?_, ?_, h3⟩
  · simp only [h2]
  · rw [h2]
    split <;> simp

theorem storeSeptaLoop_zero (cap : Nat) (s : SeptaState) :
    storeSeptaLoop cap 0 s = none := rfl

theorem storeSeptaLoop_succ (cap fuel : Nat) (s : SeptaState) :
    storeSeptaLoop cap (fuel + 1) s =
      if s.num_inserted < cap ∧ s.data ≠ [] then
        storeSeptaLoop cap fuel (septaStep s)
      else some s := rfl

/-- Main invariant of the outer loop: a terminating run extends the store by
rows whose natural keys were absent from the initial store, the counter
counts exactly those rows, and the counter never exceeds the batch cap
(when it started at or below it). -/
theorem storeSeptaLoop_spec (cap : Nat) :
    ∀ (fuel : Nat) (s t : SeptaState),
      storeSeptaLoop cap fuel s = some t →
      ∃ e, t.db = s.db ++ e ∧
        t.num_inserted = s.num_inserted + e.length ∧
        (∀ r ∈ e, stopExists s.db r.stop_type r.stop_id = false) ∧
        t.num_inserted ≤ max s.num_inserted cap
  | 0, s, t, h => by simp [storeSeptaLoop_zero] at h
  | fuel + 1, s, t, h => by
      rw [storeSeptaLoop_succ] at h
      by_cases hc : s.num_inserted < cap ∧ s.data ≠ []
      · rw [if_pos hc] at h
        obtain ⟨e₀, hdb₀, hn₀, hlen₀, hfresh₀⟩ := septaStep_spec s
        obtain ⟨e₁, hdb₁, hn₁, hfresh₁, hcap₁⟩ :=
          storeSeptaLoop_spec cap fuel (septaStep s) t h
        refine ⟨e₀ ++ e₁, ?_, ?_, ?_, ?_⟩
        · rw [hdb₁, hdb₀, List.append_assoc]
        · rw [hn₁, hn₀, List.length_append, Nat.add_assoc]
        · intro r hr
          rcases List.mem_append.mp hr with hr | hr
          · exact hfresh₀ r hr
          · have := hfresh₁ r hr
            rw [hdb₀, stopExists_append, Bool.or_eq_false_iff] at this
            exact this.1
        · have hstep : (septaStep s).num_inserted ≤ cap := by
            rw [hn₀]
            omega
          calc t.num_inserted ≤ max (septaStep s).num_inserted cap := hcap₁
            _ = cap := by omega
            _ ≤ max s.num_inserted cap := Nat.le_max_right _ _
      · rw [if_neg hc] at h
        obtain rfl : s = t := by injection h
        exact ⟨[], by simp, by simp, by simp, Nat.le_max_left _ _⟩

/-! ## Lemmas about the POI ingestion batcher -/

theorem sqlEqDist_none (d : Option Int) : sqlEqDist d none = false := by
  cases d <;> rfl

theorem poiExists_none (db : PoiDb) (sid : Nat) (pcat pname : String) :
    poiExists db sid none pcat pname = false := by
  simp [poiExists, sqlEqDist_none]

/-- A row found by the SQL existence check also satisfies the plain-equality
stored-key test (SQL equality on the distance column is stricter). -/
theorem poiExists_imp_poiStored (db : PoiDb) (sid : Nat) (pd : PoiRec)
    (h : poiExists db sid pd.distance (pd.poiClass.getD "Unknown Category")
      (pd.name.getD "Unknown Name") = true) :
    poiStored db sid pd = true := by
  simp only [poiExists, List.any_eq_true] at h
  obtain ⟨r, hr, hmatch⟩ := h
  simp only [Bool.and_eq_true] at hmatch
  obtain ⟨⟨⟨h1, h2⟩, h3⟩, h4⟩ := hmatch
  have hdist : r.distance == pd.distance := by
    unfold sqlEqDist at h2
    cases hrd : r.distance <;> cases hpd : pd.distance <;>
      simp [hrd, hpd] at h2 ⊢
    exact h2
  simp only [poiStored, List.any_eq_true]
  exact ⟨r, hr, by simp [h1, hdist, h3, h4]⟩

theorem poiStored_append (db e : PoiDb) (sid : Nat) (pd : PoiRec)
    (h : poiStored db sid pd = true) : poiStored (db ++ e) sid pd = true := by
  simp only [poiStored, List.any_append, Bool.or_eq_true]
  exact Or.inl h

theorem countForStop_append (db e : PoiDb) (sid : Nat) :
    countForStop db sid ≤ countForStop (db ++ e) sid := by
  simp [countForStop, List.filter_append]

/-- The per-stop insertion loop appends rows, counts exactly the appended
rows, and stays at or below the batch cap when entered below it. -/
theorem insertFetched_spec (sid : Nat) :
    ∀ (l : List PoiRec) (db : PoiDb) (cnt : Nat),
      ∃ e, (insertFetched sid db cnt l).1 = db ++ e ∧
        (insertFetched sid db cnt l).2 = cnt + e.length ∧
        (cnt < BATCH_SIZE → (insertFetched sid db cnt l).2 ≤ BATCH_SIZE)
  | [], db, cnt => ⟨[], by simp [insertFetched]; omega⟩
  | pd :: rest, db, cnt => by
      rw [insertFetched]
      by_cases hex : poiExists db sid pd.distance
        (pd.poiClass.getD "Unknown Category") (pd.name.getD "Unknown Name")
      · rw [if_pos hex]
        exact insertFetched_spec sid rest db cnt
      · rw [if_neg hex]
        by_cases hcap : BATCH_SIZE ≤ cnt + 1
        · rw [if_pos hcap]
          exact ⟨[⟨sid, pd.distance, pd.poiClass.getD "Unknown Category",
            pd.name.getD "Unknown Name"⟩], rfl, rfl, by intro h; omega⟩
        · rw [if_neg hcap]
          obtain ⟨e, h1, h2, h3⟩ := insertFetched_spec sid rest
            (db ++ [⟨sid, pd.distance, pd.poiClass.getD "Unknown Category",
              pd.name.getD "Unknown Name"⟩]) (cnt + 1)
          refine ⟨⟨sid, pd.distance, pd.poiClass.getD "Unknown Category",
            pd.name.getD "Unknown Name"⟩ :: e, ?_, ?_, ?_⟩
          · rw [h1]; simp
          · rw [h2]; simp; omega
          · intro _; exact h3 (by omega)

/-- The stop visitation loop appends rows, counts exactly the appended rows,
and stays at or below the batch cap when entered at or below it. -/
theorem storePoisLoop_spec (env : PoiEnv) :
    ∀ (stops : List Stop) (db : PoiDb) (cnt : Nat),
      ∃ e, (storePoisLoop env stops db cnt).1 = db ++ e ∧
        (storePoisLoop env stops db cnt).2 = cnt + e.length ∧
        (cnt ≤ BATCH_SIZE → (storePoisLoop env stops db cnt).2 ≤ BATCH_SIZE)
  | [], db, cnt => ⟨[], by simp [storePoisLoop]⟩
  | s :: rest, db, cnt => by
      rw [storePoisLoop]
      by_cases hcap : BATCH_SIZE ≤ cnt
      · rw [if_pos hcap]
        exact ⟨[], by simp, by simp, by omega⟩
      · rw [if_neg hcap]
        by_cases hsat : countForStop db s.id < 50
        · rw [if_pos hsat]
          obtain ⟨e₀, h₀1, h₀2, h₀3⟩ := insertFetched_spec s.id (env s.lat s.lon) db cnt
          obtain ⟨e₁, h₁1, h₁2, h₁3⟩ := storePoisLoop_spec env rest
            (insertFetched s.id db cnt (env s.lat s.lon)).1
            (insertFetched s.id db cnt (env s.lat s.lon)).2
          refine ⟨e₀ ++ e₁, ?_, ?_, ?_⟩
          · rw [h₁1, h₀1, List.append_assoc]
          · rw [h₁2, h₀2]; simp; omega
          · intro _
            exact h₁3 (h₀3 (by omega))
        · rw [if_neg hsat]
          exact storePoisLoop_spec env rest db cnt

/-- When the per-stop insertion loop finishes strictly below the cap, every
record of the listing it processed has its natural key stored. -/
theorem insertFetched_covers (sid : Nat) :
    ∀ (l : List PoiRec) (db : PoiDb) (cnt : Nat),
      (insertFetched sid db cnt l).2 < BATCH_SIZE →
      ∀ pd ∈ l, poiStored (insertFetched sid db cnt l).1 sid pd = true
  | [], _, _, _, pd, hpd => by simp at hpd
  | pd₀ :: rest, db, cnt, hlt, pd, hpd => by
      rw [insertFetched] at hlt ⊢
      by_cases hex : poiExists db sid pd₀.distance
        (pd₀.poiClass.getD "Unknown Category") (pd₀.name.getD "Unknown Name")
      · rw [if_pos hex] at hlt ⊢
        rcases List.mem_cons.mp hpd with rfl | hpd
        · obtain ⟨e, h1, _, _⟩ := insertFetched_spec sid rest db cnt
          rw [h1]
          exact poiStored_append db e sid pd (poiExists_imp_poiStored db sid pd hex)
        · exact insertFetched_covers sid rest db cnt hlt pd hpd
      · rw [if_neg hex] at hlt ⊢
        by_cases hcap : BATCH_SIZE ≤ cnt + 1
        · rw [if_pos hcap] at hlt
          exact absurd hlt (by omega)
        · rw [if_neg hcap] at hlt ⊢
          set row : PoiRow := ⟨sid, pd₀.distance,
            pd₀.poiClass.getD "Unknown Category", pd₀.name.getD "Unknown Name"⟩
          rcases List.mem_cons.mp hpd with rfl | hpd
          · obtain ⟨e, h1, _, _⟩ := insertFetched_spec sid rest (db ++ [row]) (cnt + 1)
            rw [h1]
            have hstored : poiStored (db ++ [row]) sid pd = true := by
              simp only [poiStored, List.any_append, Bool.or_eq_true]
              right
              simp [row]
            exact poiStored_append (db ++ [row]) e sid pd hstored
          · exact insertFetched_covers sid rest (db ++ [row]) (cnt + 1) hlt pd hpd

/-- When the visitation loop finishes strictly below the cap, every visited
stop is saturated in the final store or has its whole fetched listing
stored. -/
theorem storePoisLoop_covers (env : PoiEnv) :
    ∀ (stops : List Stop) (db : PoiDb) (cnt : Nat),
      (storePoisLoop env stops db cnt).2 < BATCH_SIZE →
      ∀ s ∈ stops,
        50 ≤ countForStop (storePoisLoop env stops db cnt).1 s.id ∨
        ∀ pd ∈ env s.lat s.lon,
          poiStored (storePoisLoop env stops db cnt).1 s.id pd = true
  | [], _, _, _, s, hs => by simp at hs
  | s₀ :: rest, db, cnt, hlt, s, hs => by
      rw [storePoisLoop] at hlt ⊢
      by_cases hcap : BATCH_SIZE ≤ cnt
      · rw [if_pos hcap] at hlt
        exact absurd hlt (by omega)
      · rw [if_neg hcap] at hlt ⊢
        by_cases hsat : countForStop db s₀.id < 50
        · rw [if_pos hsat] at hlt ⊢
          dsimp only at hlt ⊢
          rcases List.mem_cons.mp hs with rfl | hs
          · right
            intro pd hpd
            have hcnt : (insertFetched s.id db cnt (env s.lat s.lon)).2 < BATCH_SIZE := by
              obtain ⟨e₁, _, h₁2, _⟩ := storePoisLoop_spec env rest
                (insertFetched s.id db cnt (env s.lat s.lon)).1
                (insertFetched s.id db cnt (env s.lat s.lon)).2
              omega
            have hstored := insertFetched_covers s.id (env s.lat s.lon) db cnt hcnt pd hpd
            obtain ⟨e₁, h₁1, _, _⟩ := storePoisLoop_spec env rest
              (insertFetched s.id db cnt (env s.lat s.lon)).1
              (insertFetched s.id db cnt (env s.lat s.lon)).2
            rw [h₁1]
            exact poiStored_append _ e₁ s.id pd hstored
          · exact storePoisLoop_covers env rest _ _ hlt s hs
        · rw [if_neg hsat] at hlt ⊢
          rcases List.mem_cons.mp hs with rfl | hs
          · left
            obtain ⟨e₁, h₁1, _, _⟩ := storePoisLoop_spec env rest db cnt
            rw [h₁1]
            have := countForStop_append db e₁ s.id
            omega
          · exact storePoisLoop_covers env rest db cnt hlt s hs

/-! ## Lemmas about the aggregator's name deduplication -/

theorem dictLookup_append_none (acc : List (String × Nat)) (n k : String)
    (c : Nat) (h : dictLookup acc n = none) :
    dictLookup (acc ++ [(k, c)]) n = if k = n then some c else none := by
  induction acc with
  | nil => rfl
  | cons p rest ih =>
      rw [dictLookup] at h
      rcases p with ⟨k', v'⟩
      by_cases hk : k' = n
      · simp [hk] at h
      · rw [List.cons_append, dictLookup, if_neg hk]
        exact ih (by simpa [hk] using h)

theorem dictLookup_append_some (acc l₂ : List (String × Nat)) (n : String)
    (c₀ : Nat) (h : dictLookup acc n = some c₀) :
    dictLookup (acc ++ l₂) n = some c₀ := by
  induction acc with
  | nil => simp [dictLookup] at h
  | cons p rest ih =>
      rcases p with ⟨k', v'⟩
      rw [dictLookup] at h
      by_cases hk : k' = n
      · rw [if_pos hk] at h
        rw [List.cons_append, dictLookup, if_pos hk]
        exact h
      · rw [if_neg hk] at h
        rw [List.cons_append, dictLookup, if_neg hk]
        exact ih h

/-- Overwriting the unique entry for `n` leaves a dict whose `n`-entries and
lookup reflect the new value. -/
theorem dictWrite_self (n : String) (c c₀ : Nat) :
    ∀ acc : List (String × Nat),
      acc.filter (fun p => p.1 == n) = [(n, c₀)] →
      (dictWrite acc n c).filter (fun p => p.1 == n) = [(n, c)] ∧
      dictLookup (dictWrite acc n c) n = some c
  | [], h => by simp at h
  | (k', v') :: rest, h => by
      by_cases hk : k' = n
      · subst hk
        rw [List.filter_cons_of_pos (by simp)] at h
        have hv : v' = c₀ ∧ rest.filter (fun p => p.1 == k') = [] := by
          have := List.cons_eq_cons.mp h
          exact ⟨congrArg Prod.snd this.1, this.2⟩
        rw [dictWrite, if_pos rfl]
        refine ⟨?_, by rw [dictLookup, if_pos rfl]⟩
        rw [List.filter_cons_of_pos (by simp), hv.2]
      · rw [List.filter_cons_of_neg (by simp [hk])] at h
        rw [dictWrite, if_neg hk]
        obtain ⟨h1, h2⟩ := dictWrite_self n c c₀ rest h
        refine ⟨?_, ?_⟩
        · rw [List.filter_cons_of_neg (by simp [hk]), h1]
        · rw [dictLookup, if_neg hk, h2]

/-- Overwriting the entry for a different key changes nothing about `n`. -/
theorem dictWrite_other (n k : String) (c : Nat) (hk : k ≠ n) :
    ∀ acc : List (String × Nat),
      (dictWrite acc k c).filter (fun p => p.1 == n)
          = acc.filter (fun p => p.1 == n) ∧
      dictLookup (dictWrite acc k c) n = dictLookup acc n
  | [] => by
      refine ⟨?_, ?_⟩
      · rw [dictWrite]
        simp [hk]
      · rw [dictWrite]
        simp [dictLookup, hk]
  | (k', v') :: rest => by
      rw [dictWrite]
      by_cases hk' : k' = k
      · rw [if_pos hk']
        subst hk'
        refine ⟨?_, ?_⟩
        · rw [List.filter_cons_of_neg (by simp [hk]),
            List.filter_cons_of_neg (by simp [hk])]
        · rw [dictLookup, if_neg hk, dictLookup, if_neg hk]
      · rw [if_neg hk']
        obtain ⟨h1, h2⟩ := dictWrite_other n k c hk rest
        by_cases hkn : k' = n
        · refine ⟨?_, ?_⟩
          · rw [List.filter_cons_of_pos (by simp [hkn]),
              List.filter_cons_of_pos (by simp [hkn]), h1]
          · rw [dictLookup, if_pos hkn, dictLookup, if_pos hkn]
        · refine ⟨?_, ?_⟩
          · rw [List.filter_cons_of_neg (by simp [hkn]),
              List.filter_cons_of_neg (by simp [hkn]), h1]
          · rw [dictLookup, if_neg hkn, dictLookup, if_neg hkn, h2]

theorem optCombine_none (o : Option Nat) : optCombine o none = o := by
  cases o <;> rfl

theorem optCombine_absorb (c₀ c : Nat) (o : Option Nat) (h : c₀ ≤ c) :
    optCombine (some c₀) (optCombine (some c) o) = optCombine (some c) o := by
  cases o with
  | none => simp [optCombine, Nat.max_eq_right h]
  | some m =>
      simp only [optCombine, Option.some.injEq]
      omega

theorem optCombine_swallow (c₀ c : Nat) (o : Option Nat) (h : c ≤ c₀) :
    optCombine (some c₀) (optCombine (some c) o) = optCombine (some c₀) o := by
  cases o with
  | none => simp [optCombine, Nat.max_eq_left h]
  | some m =>
      simp only [optCombine, Option.some.injEq]
      omega

theorem dedupFold_cons_new (acc : List (String × Nat)) (n : String) (c : Nat)
    (rest : List (String × Nat)) (h : dictLookup acc n = none) :
    dedupFold acc ((n, c) :: rest) = dedupFold (acc ++ [(n, c)]) rest := by
  rw [dedupFold, h]

theorem dedupFold_cons_gt (acc : List (String × Nat)) (n : String) (c c₀ : Nat)
    (rest : List (String × Nat)) (h : dictLookup acc n = some c₀)
    (hlt : c₀ < c) :
    dedupFold acc ((n, c) :: rest) = dedupFold (dictWrite acc n c) rest := by
  rw [dedupFold, h]
  exact if_pos hlt

theorem dedupFold_cons_le (acc : List (String × Nat)) (n : String) (c c₀ : Nat)
    (rest : List (String × Nat)) (h : dictLookup acc n = some c₀)
    (hlt : ¬c₀ < c) :
    dedupFold acc ((n, c) :: rest) = dedupFold acc rest := by
  rw [dedupFold, h]
  exact if_neg hlt

theorem maxOfName_cons_self (n : String) (c : Nat) (l : List (String × Nat)) :
    maxOfName ((n, c) :: l) n = optCombine (some c) (maxOfName l n) := by
  rw [maxOfName, if_pos rfl]
  cases maxOfName l n <;> rfl

theorem maxOfName_cons_other (k n : String) (c : Nat)
    (l : List (String × Nat)) (h : ¬k = n) :
    maxOfName ((k, c) :: l) n = maxOfName l n := by
  rw [maxOfName, if_neg h]

/-- Main invariant of the deduplication fold: for every name, the entries the
final dict holds for it are exactly one pair carrying the combined maximum of
what the dict already stored and what the remaining input holds — provided
the incoming dict already holds at most one entry for the name, consistent
with its lookup. -/
theorem dedupFold_filter (n : String) :
    ∀ (l acc : List (String × Nat)),
      (dictLookup acc n = none ∧ acc.filter (fun p => p.1 == n) = []) ∨
        (∃ c₀, dictLookup acc n = some c₀ ∧
          acc.filter (fun p => p.1 == n) = [(n, c₀)]) →
      (dedupFold acc l).filter (fun p => p.1 == n)
        = entryOf n (optCombine (dictLookup acc n) (maxOfName l n))
  | [], acc, hP => by
      rw [dedupFold, maxOfName, optCombine_none]
      rcases hP with ⟨h1, h2⟩ | ⟨c₀, h1, h2⟩
      · rw [h1, h2]; rfl
      · rw [h1, h2]; rfl
  | (k, c) :: l, acc, hP => by
      by_cases hkn : k = n
      · subst hkn
        rw [maxOfName_cons_self]
        rcases hP with ⟨h1, h2⟩ | ⟨c₀, h1, h2⟩
        · rw [dedupFold_cons_new acc k c l h1, h1]
          have hl : dictLookup (acc ++ [(k, c)]) k = some c := by
            rw [dictLookup_append_none acc k k c h1, if_pos rfl]
          have hf : (acc ++ [(k, c)]).filter (fun p => p.1 == k) = [(k, c)] := by
            rw [List.filter_append, h2]
            simp
          rw [dedupFold_filter k l (acc ++ [(k, c)]) (Or.inr ⟨c, hl, hf⟩), hl]
          rfl
        · rw [h1]
          by_cases hlt : c₀ < c
          · rw [dedupFold_cons_gt acc k c c₀ l h1 hlt]
            obtain ⟨hw1, hw2⟩ := dictWrite_self k c c₀ acc h2
            rw [dedupFold_filter k l (dictWrite acc k c) (Or.inr ⟨c, hw2, hw1⟩),
              hw2, optCombine_absorb c₀ c (maxOfName l k) (Nat.le_of_lt hlt)]
          · rw [dedupFold_cons_le acc k c c₀ l h1 hlt,
              dedupFold_filter k l acc (Or.inr ⟨c₀, h1, h2⟩), h1,
              optCombine_swallow c₀ c (maxOfName l k) (by omega)]
      · rw [maxOfName_cons_other k n c l hkn]
        cases hlk : dictLookup acc k with
        | none =>
            have hP' :
                (dictLookup (acc ++ [(k, c)]) n = none ∧
                  (acc ++ [(k, c)]).filter (fun p => p.1 == n) = []) ∨
                (∃ c₀, dictLookup (acc ++ [(k, c)]) n = some c₀ ∧
                  (acc ++ [(k, c)]).filter (fun p => p.1 == n) = [(n, c₀)]) := by
              rcases hP with ⟨h1, h2⟩ | ⟨c₀, h1, h2⟩
              · left
                refine ⟨?_, ?_⟩
                · rw [dictLookup_append_none acc n k c h1, if_neg hkn]
                · rw [List.filter_append, h2]
                  simp [hkn]
              · right
                refine ⟨c₀, dictLookup_append_some acc [(k, c)] n c₀ h1, ?_⟩
                rw [List.filter_append, h2]
                simp [hkn]
            rw [dedupFold_cons_new acc k c l hlk,
              dedupFold_filter n l (acc ++ [(k, c)]) hP']
            rcases hP with ⟨h1, _⟩ | ⟨c₀, h1, _⟩
            · rw [h1, dictLookup_append_none acc n k c h1, if_neg hkn]
            · rw [h1, dictLookup_append_some acc [(k, c)] n c₀ h1]
        | some c₀ =>
            by_cases hlt : c₀ < c
            · rw [dedupFold_cons_gt acc k c c₀ l hlk hlt]
              obtain ⟨hw1, hw2⟩ := dictWrite_other n k c hkn acc
              have hP' :
                  (dictLookup (dictWrite acc k c) n = none ∧
                    (dictWrite acc k c).filter (fun p => p.1 == n) = []) ∨
                  (∃ c₁, dictLookup (dictWrite acc k c) n = some c₁ ∧
                    (dictWrite acc k c).filter (fun p => p.1 == n) = [(n, c₁)]) := by
                rcases hP with ⟨h1, h2⟩ | ⟨c₁, h1, h2⟩
                · exact Or.inl ⟨by rw [hw2, h1], by rw [hw1, h2]⟩
                · exact Or.inr ⟨c₁, by rw [hw2, h1], by rw [hw1, h2]⟩
              rw [dedupFold_filter n l (dictWrite acc k c) hP', hw2]
            · rw [dedupFold_cons_le acc k c c₀ l hlk hlt]
              exact dedupFold_filter n l acc hP

/-- A record with no `"distance"` field is always inserted when the per-stop
loop processes it below the cap: the NULL-semantics existence check can never
find it, so the insert branch runs, appending a NULL-distance row with the
defaulted category and name. -/
theorem insertFetched_null_mem (sid : Nat) :
    ∀ (l : List PoiRec) (db : PoiDb) (cnt : Nat) (pd : PoiRec),
      pd ∈ l → pd.distance = none →
      (insertFetched sid db cnt l).2 < BATCH_SIZE →
      (⟨sid, none, pd.poiClass.getD "Unknown Category",
        pd.name.getD "Unknown Name"⟩ : PoiRow) ∈ (insertFetched sid db cnt l).1
  | [], _, _, _, hpd, _, _ => by simp at hpd
  | pd₀ :: rest, db, cnt, pd, hpd, hdist, hlt => by
      rw [insertFetched] at hlt ⊢
      by_cases hex : poiExists db sid pd₀.distance
        (pd₀.poiClass.getD "Unknown Category") (pd₀.name.getD "Unknown Name")
      · rw [if_pos hex] at hlt ⊢
        rcases List.mem_cons.mp hpd with rfl | hpd
        · rw [hdist, poiExists_none] at hex
          exact absurd hex (by simp)
        · exact insertFetched_null_mem sid rest db cnt pd hpd hdist hlt
      · rw [if_neg hex] at hlt ⊢
        by_cases hcap : BATCH_SIZE ≤ cnt + 1
        · rw [if_pos hcap] at hlt
          exact absurd hlt (by omega)
        · rw [if_neg hcap] at hlt ⊢
          rcases List.mem_cons.mp hpd with rfl | hpd
          · obtain ⟨e, h1, _, _⟩ := insertFetched_spec sid rest
              (db ++ [⟨sid, pd.distance, pd.poiClass.getD "Unknown Category",
                pd.name.getD "Unknown Name"⟩]) (cnt + 1)
            rw [h1, hdist]
            refine List.mem_append.mpr (Or.inl (List.mem_append.mpr (Or.inr ?_)))
            exact List.mem_singleton.mpr rfl
          · exact insertFetched_null_mem sid rest
              (db ++ [⟨sid, pd₀.distance, pd₀.poiClass.getD "Unknown Category",
                pd₀.name.getD "Unknown Name"⟩]) (cnt + 1) pd hpd hdist hlt

/-- The restart reordering never changes which stops get visited. -/
theorem reorderedStops_mem (stops : List Stop) (db : PoiDb) (s : Stop) :
    s ∈ reorderedStops stops db ↔ s ∈ stops := by
  unfold reorderedStops
  split
  · rfl
  · split
    · rfl
    · rename_i i _
      constructor
      · intro h
        rcases List.mem_append.mp h with h | h
        · exact List.mem_of_mem_drop h
        · exact List.mem_of_mem_take h
      · intro h
        rw [← List.take_append_drop i stops] at h
        rcases List.mem_append.mp h with h | h
        · exact List.mem_append.mpr (Or.inr h)
        · exact List.mem_append.mpr (Or.inl h)

/-! ## The claims -/

/-- C1.  The claim asserts that every invocation of `store_septa_stops`
terminates, for every triple of fetched listings.  The code violates it: a
category whose listing becomes (or starts) empty without its final removal
happening on the insert path keeps its `beeg_data` key, so the outer loop
re-selects the same empty category forever.  This theorem evaluates the code
at the failing input — three empty listings (e.g. three non-200 responses):
for every amount of fuel the outer loop has not exited, i.e. the invocation
never terminates. -/
theorem septa_termination_code_bug (fuel : Nat) :
    store_septa_stops [] [] [] [] fuel = none := by
  have hguard :
      (⟨mkBeegData [] [] [], [], 0⟩ : SeptaState).num_inserted < BATCH_SIZE ∧
        (⟨mkBeegData [] [] [], [], 0⟩ : SeptaState).data ≠ ([] : BeegData) := by
    exact ⟨by decide, by decide⟩
  have hfix : septaStep ⟨mkBeegData [] [] [], [], 0⟩
      = ⟨mkBeegData [] [] [], [], 0⟩ := rfl
  have hloop : ∀ f : Nat,
      storeSeptaLoop BATCH_SIZE f ⟨mkBeegData [] [] [], [], 0⟩ = none := by
    intro f
    induction f with
    | zero => rfl
    | succ m ih => rw [storeSeptaLoop_succ, if_pos hguard, hfix, ih]
  unfold store_septa_stops
  rw [hloop fuel]
  rfl

/-- C2.  Idempotent stop insertion: a second invocation of
`store_septa_stops` with the identical fetched listings, run against the
store the first invocation left, extends the store only by rows whose
natural key `(stop_type, stop_id)` does not occur anywhere in the store the
first invocation produced — in particular not among the keys the first
invocation inserted.  So across both invocations each natural key is
inserted at most once. -/
theorem septa_idempotent_insertion
    (bus trolley rail : List Candidate) (db : StopDb) (fuel₁ fuel₂ : Nat)
    (t₁ t₂ : StopDb × Option Nat)
    (_h₁ : store_septa_stops bus trolley rail db fuel₁ = some t₁)
    (h₂ : store_septa_stops bus trolley rail t₁.1 fuel₂ = some t₂) :
    t₂.1 = t₁.1 ++ t₂.1.drop t₁.1.length ∧
    ∀ r ∈ t₂.1.drop t₁.1.length, ∀ r' ∈ t₁.1,
      ¬(r.stop_type = r'.stop_type ∧ r.stop_id = r'.stop_id) := by
  obtain ⟨u, hu, ht⟩ := Option.map_eq_some'.mp h₂
  obtain ⟨e, he, _, hfresh, _⟩ := storeSeptaLoop_spec BATCH_SIZE fuel₂ _ u hu
  dsimp only at he hfresh
  have ht1 : t₂.1 = t₁.1 ++ e := by rw [← ht]; exact he
  have hdrop : t₂.1.drop t₁.1.length = e := by
    rw [ht1]
    exact List.drop_left t₁.1 e
  refine ⟨by rw [hdrop, ← ht1], ?_⟩
  intro r hr r' hr' hkey
  rw [hdrop] at hr
  exact (stopExists_false_iff t₁.1 r.stop_type r.stop_id).mp (hfresh r hr)
    r' hr' ⟨hkey.1.symm, hkey.2.symm⟩

/-- C2 witness: three 17-candidate listings; the first invocation (cap 25)
inserts 25 rows and the second, with identical listings, skips those 25 and
extends the store only with fresh keys. -/
theorem septa_idempotent_insertion_witness :
    c2Run2.1 = c2Run1.1 ++ c2Run2.1.drop c2Run1.1.length :=
  (septa_idempotent_insertion (mkCands "b" 17) (mkCands "t" 17)
    (mkCands "r" 17) [] 40 60 c2Run1 c2Run2 rfl rfl).1

/-- C3.  Batch cap respected: a terminating invocation of
`store_septa_stops` grows the stop store by at most `BATCH_SIZE = 25` rows,
and every invocation of `store_pois` grows the POI store by at most
`BATCH_SIZE` rows (and returns a count of at most `BATCH_SIZE`), regardless
of the listings and of the initial store state. -/
theorem batch_cap_respected :
    (∀ (bus trolley rail : List Candidate) (db : StopDb) (fuel : Nat)
        (t : StopDb × Option Nat),
        store_septa_stops bus trolley rail db fuel = some t →
        t.1.length ≤ db.length + BATCH_SIZE) ∧
    (∀ (env : PoiEnv) (stops : List Stop) (db : PoiDb),
        (store_pois env stops db).1.length ≤ db.length + BATCH_SIZE ∧
        (store_pois env stops db).2 ≤ BATCH_SIZE) := by
  constructor
  · intro bus trolley rail db fuel t h
    obtain ⟨u, hu, ht⟩ := Option.map_eq_some'.mp h
    obtain ⟨e, he, hn, _, hcap⟩ := storeSeptaLoop_spec BATCH_SIZE fuel _ u hu
    dsimp only at he hn hcap
    have ht1 : t.1 = db ++ e := by rw [← ht]; exact he
    rw [ht1, List.length_append]
    omega
  · intro env stops db
    obtain ⟨e, h1, h2, h3⟩ := storePoisLoop_spec env (reorderedStops stops db) db 0
    unfold store_pois
    have hcap := h3 (by omega)
    refine ⟨?_, hcap⟩
    rw [h1, List.length_append]
    omega

/-- C3 witness: a small terminating stop ingestion and a POI ingestion with
25 available records both respect the cap. -/
theorem batch_cap_respected_witness :
    c3T.1.length ≤ ([] : StopDb).length + BATCH_SIZE ∧
    (store_pois env25 oneStop []).1.length ≤ ([] : PoiDb).length + BATCH_SIZE ∧
    (store_pois env25 oneStop []).2 ≤ BATCH_SIZE :=
  ⟨batch_cap_respected.1 (mkCands "b" 1) (mkCands "t" 1) (mkCands "r" 1)
      [] 10 c3T rfl,
    (batch_cap_respected.2 env25 oneStop []).1,
    (batch_cap_respected.2 env25 oneStop []).2⟩

/-- C4 counterexample.  The claim states an *if and only if*: the returned
count is strictly below the cap exactly when no unsaturated stop with
fetchable new POIs remains.  It fails on a store with one stop whose listing
holds exactly 25 fresh records: the invocation inserts all 25 and returns
`BATCH_SIZE` (not strictly below the cap) even though nothing fetchable
remains afterwards. -/
theorem poi_exhaustion_iff_counterexample :
    ¬(((store_pois env25 oneStop []).2 < BATCH_SIZE) ↔
      unsaturatedFetchableRemains env25 oneStop
        (store_pois env25 oneStop []).1 = false) := by
  decide

/-- C4 amended: only the forward direction holds — when an invocation of
`store_pois` returns a count strictly below the batch cap, no stop remains
that is unsaturated and has a fetched record whose natural key is absent
from the final store. -/
theorem poi_exhaustion_forward (env : PoiEnv) (stops : List Stop) (db : PoiDb)
    (h : (store_pois env stops db).2 < BATCH_SIZE) :
    unsaturatedFetchableRemains env stops (store_pois env stops db).1 = false := by
  unfold store_pois at h ⊢
  rw [unsaturatedFetchableRemains, List.any_eq_false]
  intro s hs
  have hcov := storePoisLoop_covers env (reorderedStops stops db) db 0 h s
    ((reorderedStops_mem stops db s).mpr hs)
  rcases hcov with hsat | hstored
  · rw [if_neg (by omega)]
    simp
  · by_cases hc : countForStop
        (storePoisLoop env (reorderedStops stops db) db 0).1 s.id < 50
    · rw [if_pos hc]
      intro hbad
      rw [List.any_eq_true] at hbad
      obtain ⟨pd, hpd, hb⟩ := hbad
      rw [hstored pd hpd] at hb
      simp at hb
    · rw [if_neg hc]
      simp

/-- C4 witness: with an empty listing for the lone stop the invocation
returns 0 < 25 and indeed nothing fetchable remains. -/
theorem poi_exhaustion_forward_witness :
    unsaturatedFetchableRemains emptyEnv oneStop
      (store_pois emptyEnv oneStop []).1 = false :=
  poi_exhaustion_forward emptyEnv oneStop [] (by decide)

/-- C5 counterexample.  The claim says the restart point is the
second-most-*recently-touched* stop.  On a POI store whose rows were
committed for stop 3 first and stop 1 last, the second-most-recently-touched
stop is 3, but the code (which orders by `stop_id DESC`, i.e. by magnitude)
picks 1 as the second stop id and therefore leaves the visitation order
starting at stop 1, not at stop 3. -/
theorem poi_restart_counterexample :
    secondMostRecentlyTouched c5Db = some 3 ∧
    secondLargestDistinctId c5Db = some 1 ∧
    (reorderedStops c5Stops c5Db).map (fun s => s.id) = [1, 2, 3] ∧
    ((reorderedStops c5Stops c5Db).map (fun s => s.id)).head? ≠ some 3 := by
  decide

/-- C5 amended: the batcher reorders the stop visitation list by a rotation
(so it still covers all stops, wrapping around), and the rotation point is
the first stop carrying the *second-largest distinct stop id* present in the
POI store — which coincides with the second-most-recently-touched stop only
when stops were touched in increasing id order. -/
theorem poi_restart_rotation (stops : List Stop) (db : PoiDb) :
    (∃ i, reorderedStops stops db = stops.drop i ++ stops.take i) ∧
    (∀ sid i, secondLargestDistinctId db = some sid →
      stops.findIdx? (fun s => s.id == sid) = some i →
      reorderedStops stops db = stops.drop i ++ stops.take i) := by
  constructor
  · cases hsl : secondLargestDistinctId db with
    | none =>
        refine ⟨0, ?_⟩
        simp [reorderedStops, hsl]
    | some sid =>
        cases hfi : stops.findIdx? (fun s => s.id == sid) with
        | none =>
            refine ⟨0, ?_⟩
            simp [reorderedStops, hsl, hfi]
        | some i =>
            refine ⟨i, ?_⟩
            simp [reorderedStops, hsl, hfi]
  · intro sid i h1 h2
    simp [reorderedStops, h1, h2]

/-- C5 witness: on the concrete store the code rotates by the index of the
stop with the second-largest distinct id. -/
theorem poi_restart_rotation_witness :
    reorderedStops c5Stops c5Db = c5Stops.drop 0 ++ c5Stops.take 0 :=
  (poi_restart_rotation c5Stops c5Db).2 1 0 (by decide) (by decide)

/-- C6.  Round-robin fairness at candidate counts [10, 1, 10] with a batch
cap of 6 against an empty store: the loop of `store_septa_stops`, run with
cap 6, inserts exactly `b1, t1, b2, r1, b3, r2` — categories are drawn in
rotation, the 1-candidate trolley category is exhausted and dropped from the
rotation right after its single insertion (the final key list holds only the
other two categories), and the two remaining categories alternate
(bus, rail, bus, rail) for the rest of the batch. -/
theorem septa_round_robin_trace :
    (storeSeptaLoop 6 20
        ⟨mkBeegData (mkCands "b" 10) (mkCands "t" 1) (mkCands "r" 10),
          [], 0⟩).map
        (fun t => (t.db.map fun r => (r.stop_type, r.stop_id),
          t.data.map Prod.fst, t.num_inserted))
      = some ([("bus_stops", "b1"), ("trolley_stops", "t1"),
          ("bus_stops", "b2"), ("rail_stations", "r1"),
          ("bus_stops", "b3"), ("rail_stations", "r2")],
          ["bus_stops", "rail_stations"], 6) := by
  decide

/-- C7 counterexample.  The claim asserts both fetchers return `[]` on a 200
response whose body cannot be parsed.  `fetch_septa_stops` has no exception
handler around `r.json()`, so on such a response it raises instead of
returning `[]`. -/
theorem fetch_malformed_counterexample :
    fetch_septa_stops ⟨200, none⟩ = Except.error "JSONDecodeError" := rfl

/-- C7 amended: every non-success status yields an empty listing from both
fetchers, and `fetch_locationiq_pois` also absorbs a malformed 200 body into
`[]`; only `fetch_septa_stops` propagates the parse exception on a malformed
200 body. -/
theorem fetch_failure_absorbed (rs : SeptaResponse) (rp : PoiResponse) :
    (rs.status ≠ 200 → fetch_septa_stops rs = Except.ok []) ∧
    (rp.status ≠ 200 ∨ rp.body = none → fetch_locationiq_pois rp = []) := by
  constructor
  · intro h
    unfold fetch_septa_stops
    rw [if_neg h]
  · intro h
    unfold fetch_locationiq_pois
    rcases h with h | h
    · rw [if_neg h]
    · rw [h]
      split <;> rfl

/-- C7 witness: a 404 SEPTA response and a malformed 200 LocationIQ body. -/
theorem fetch_failure_absorbed_witness :
    fetch_septa_stops ⟨404, some []⟩ = Except.ok [] ∧
    fetch_locationiq_pois ⟨200, none⟩ = [] :=
  ⟨(fetch_failure_absorbed ⟨404, some []⟩ ⟨200, none⟩).1 (by decide),
    (fetch_failure_absorbed ⟨404, some []⟩ ⟨200, none⟩).2 (Or.inr rfl)⟩

/-- C8.  Name dedup keeps max: whenever a name occurs in a category's
`(name, poi_count)` list, the deduplicated list of `calculate_data` holds
exactly one entry for that name, and it carries the maximum count observed
under that name. -/
theorem aggregator_dedup_keeps_max (l : List (String × Nat)) (n : String)
    (m : Nat) (h : maxOfName l n = some m) :
    (dedupKeepMax l).filter (fun p => p.1 == n) = [(n, m)] := by
  have hfold := dedupFold_filter n l [] (Or.inl ⟨rfl, rfl⟩)
  rw [dedupKeepMax, hfold, h]
  rfl

/-- C8 witness: two stops named "Main St" with counts 2 and 7 collapse to
the single entry ("Main St", 7). -/
theorem aggregator_dedup_keeps_max_witness :
    (dedupKeepMax [("Main St", 2), ("Main St", 7)]).filter
      (fun p => p.1 == "Main St") = [("Main St", 7)] :=
  aggregator_dedup_keeps_max [("Main St", 2), ("Main St", 7)] "Main St" 7 rfl

/-- C9 counterexample.  The claim says `store_septa_stops` *returns* the
count of stops inserted.  The Python function body has no `return`
statement, so the invocation below — which inserts 3 rows — returns `None`
(modelled `none`), not 3. -/
theorem septa_return_counterexample :
    (store_septa_stops (mkCands "b" 1) (mkCands "t" 1) (mkCands "r" 1)
        [] 10).map (fun t => t.2) = some none ∧
    (store_septa_stops (mkCands "b" 1) (mkCands "t" 1) (mkCands "r" 1)
        [] 10).map (fun t => t.1.length) = some 3 ∧
    (none : Option Nat) ≠ some 3 := by
  refine ⟨rfl, rfl, by simp⟩

/-- C9 amended: `store_septa_stops` returns `None`, but the count it tracks
internally is correct — the `num_inserted` counter at loop exit equals the
number of stop rows the invocation appended to the store. -/
theorem septa_counter_counts_inserts
    (bus trolley rail : List Candidate) (db : StopDb) (fuel : Nat)
    (t : SeptaState)
    (h : storeSeptaLoop BATCH_SIZE fuel
      ⟨mkBeegData bus trolley rail, db, 0⟩ = some t) :
    t.db = db ++ t.db.drop db.length ∧
    t.num_inserted = (t.db.drop db.length).length := by
  obtain ⟨e, he, hn, _, _⟩ := storeSeptaLoop_spec BATCH_SIZE fuel _ t h
  dsimp only at he hn
  have hdrop : t.db.drop db.length = e := by
    rw [he]
    exact List.drop_left db e
  exact ⟨by rw [hdrop, ← he], by rw [hdrop]; omega⟩

/-- C9 amended witness: the three-singleton run exits with counter 3 and
exactly 3 appended rows. -/
theorem septa_counter_counts_inserts_witness :
    c9T.db = ([] : StopDb) ++ c9T.db.drop ([] : StopDb).length ∧
    c9T.num_inserted = (c9T.db.drop ([] : StopDb).length).length :=
  septa_counter_counts_inserts (mkCands "b" 1) (mkCands "t" 1)
    (mkCands "r" 1) [] 10 c9T rfl

/-- C10.  A fetched POI record lacking the `"distance"` field is still
inserted by the per-stop insertion loop of `store_pois` (the NULL-semantics
existence check never matches, so the insert branch runs), as a row with a
NULL distance and the sentinel defaults for category and name; such a row
adds one to the stop's saturation count (which counts all rows for the
stop), yet contributes nothing to the aggregator's count at any distance
threshold, because `p.distance <= ?` never holds for NULL. -/
theorem poi_null_distance_row (sid : Nat) (db : PoiDb) (cnt : Nat)
    (l : List PoiRec) (pd : PoiRec) (hpd : pd ∈ l)
    (hdist : pd.distance = none)
    (hlt : (insertFetched sid db cnt l).2 < BATCH_SIZE) :
    ((⟨sid, none, pd.poiClass.getD "Unknown Category",
        pd.name.getD "Unknown Name"⟩ : PoiRow)
      ∈ (insertFetched sid db cnt l).1) ∧
    (∀ (db₂ : PoiDb) (sid₂ : Nat) (c n : String),
        countForStop (db₂ ++ [⟨sid₂, none, c, n⟩]) sid₂
          = countForStop db₂ sid₂ + 1) ∧
    (∀ (db₂ : PoiDb) (sid₂ : Nat) (c n : String) (threshold : Int),
        poiCountAtThreshold (db₂ ++ [⟨sid₂, none, c, n⟩]) sid₂ threshold
          = poiCountAtThreshold db₂ sid₂ threshold) := by
  refine ⟨insertFetched_null_mem sid l db cnt pd hpd hdist hlt, ?_, ?_⟩
  · intro db₂ sid₂ c n
    simp [countForStop, List.filter_append]
  · intro db₂ sid₂ c n threshold
    simp [poiCountAtThreshold, List.filter_append]

/-- C10 witness: a record with no fields at all, inserted for stop 7; the
row counts for saturation but not for any threshold. -/
theorem poi_null_distance_row_witness :
    ((⟨7, none, "Unknown Category", "Unknown Name"⟩ : PoiRow)
      ∈ (insertFetched 7 [] 0 [nullRec]).1) ∧
    countForStop ([⟨5, some 3, "a", "b"⟩] ++ [⟨5, none, "c", "n"⟩]) 5
      = countForStop [⟨5, some 3, "a", "b"⟩] 5 + 1 ∧
    poiCountAtThreshold ([⟨5, some 3, "a", "b"⟩] ++ [⟨5, none, "c", "n"⟩]) 5 416
      = poiCountAtThreshold [⟨5, some 3, "a", "b"⟩] 5 416 := by
  obtain ⟨h1, h2, h3⟩ := poi_null_distance_row 7 [] 0 [nullRec] nullRec
    (by simp) rfl (by decide)
  exact ⟨h1, h2 [⟨5, some 3, "a", "b"⟩] 5 "c" "n",
    h3 [⟨5, some 3, "a", "b"⟩] 5 "c" "n" 416⟩

end Project
